import Mathlib

/-!
# aiaa-dextra3d: the command-line front-end of the DEXTR3D annotation call

A shallow embedding of `main` of `cpp-client/tools/aiaa/aiaa-dextra3d.cpp`.

* The argument vector is a `List String` (`argc` is its length).
* The client library (`nvidia::aiaa::PointSet`, `Client`, `ModelList`, `Utils`) is
  not part of this file: every operation of it that `main` uses is a field of
  `Env`.  An operation that can throw `nvidia::aiaa::exception` returns `Except`.
* Every operation `main` performs on the library inside its `try` block is
  appended to a trace of `Call`s, so that "is invoked", "exactly one call" and
  "no further call" are statements about that trace.
* `double` values are only copied by `main` (never computed with); they are
  carried as `Rat`.
* `Utils::lexical_cast` runs outside the `try` block (lines 60 and 68); it is a
  total function of `Env` and is not recorded in the trace.
* `getCmdOption` and `cmdOptionExists` come from `../commonutils.h`, which is not
  among the sources; they are modelled as a lookup of the first occurrence of the
  option in the whole argument vector.
* Writes to `std::cout` / `std::cerr`, the `-ts` flag and the latency measurement
  are not modelled.
-/

namespace Aiaa

/-! ## Command-line helpers -/

/-- Modelled from the spec: `cmdOptionExists` of `../commonutils.h` (the header is not
among the sources).  The option exists when the token occurs anywhere in
`[argv, argv + argc)`. -/
def cmdOptionExists (argv : List String) (option : String) : Bool :=
  match argv with
  | [] => false
  | a :: rest => if a = option then true else cmdOptionExists rest option

/-- Modelled from the spec: `getCmdOption` of `../commonutils.h` (the header is not
among the sources).  The value of an option is the token that follows the first
occurrence of the option; when the option does not occur, or occurs as the last
token, the value is the default (`std::string()` when none is passed). -/
def getCmdOption (argv : List String) (option : String) (defaultVal : String) : String :=
  match argv with
  | [] => defaultVal
  | a :: rest =>
    if a = option then
      match rest with
      | [] => defaultVal
      | v :: _ => v
    else getCmdOption rest option defaultVal

/-! ## Data of the client library -/

/-- Modelled from the spec: `nvidia::aiaa::exception` carries a numeric id and a
description. -/
structure AiaaException where
  id : Int
  name : String
  deriving DecidableEq, Repr

/-- Modelled from the spec: `nvidia::aiaa::Point`, a sequence of ints. -/
abbrev Point := List Int

/-- Modelled from the spec: `nvidia::aiaa::PointSet`, an ordered sequence of points. -/
structure PointSet where
  points : List Point
  deriving DecidableEq, Repr

/-- Modelled from the spec: `nvidia::aiaa::Model::ModelType`; `annotation` is the
point-based annotation capability. -/
inductive ModelType where
  | segmentation
  | annotation
  | unknown
  deriving DecidableEq, Repr

/-- Modelled from the spec: `nvidia::aiaa::Model`, the model descriptor
(name, labels, capability, padding, roi). -/
structure Model where
  name : String
  labels : List String
  type : ModelType
  padding : Rat
  roi : Point
  deriving DecidableEq, Repr

/-- Modelled from the spec: `nvidia::aiaa::ModelList`, the catalog. -/
structure ModelList where
  models : List Model
  deriving DecidableEq, Repr

/-- Modelled from the spec: `nvidia::aiaa::Client`, built from the server URI and
the timeout in seconds. -/
structure Client where
  serverUri : String
  timeoutInSec : Int
  deriving DecidableEq, Repr

/-- The operations of the client library used by `main`. -/
structure Env where
  /-- `Utils::lexical_cast<double>` -/
  lexical_cast_double : String → Rat
  /-- `Utils::lexical_cast<int>` -/
  lexical_cast_int : String → Int
  /-- `PointSet::fromJson` -/
  fromJson : String → Except AiaaException PointSet
  /-- `Client::Client(serverUri, timeout)` -/
  newClient : String → Int → Except AiaaException Client
  /-- `Client::models()` -/
  models : Client → Except AiaaException ModelList
  /-- `ModelList::getMatchingModel(label, type)` -/
  getMatchingModel : ModelList → String → ModelType → Except AiaaException Model
  /-- `Client::model(name)` -/
  model : Client → String → Except AiaaException Model
  /-- `Utils::stringToPoint(str, delim)` -/
  stringToPoint : String → Char → Except AiaaException Point
  /-- `Client::dextr3D(model, pointSet, inputImageFile, outputImageFile, preProcess, sessionId)` -/
  dextr3D : Client → Model → PointSet → String → String → Bool → String → Except AiaaException Int

/-- One operation performed on the client library, with its arguments. -/
inductive Call where
  | fromJson (str : String)
  | newClient (serverUri : String) (timeout : Int)
  | models (client : Client)
  | getMatchingModel (models : ModelList) (label : String) (type : ModelType)
  | model (client : Client) (name : String)
  | stringToPoint (str : String) (delim : Char)
  | dextr3D (client : Client) (m : Model) (pointSet : PointSet) (inputImageFile : String)
      (outputImageFile : String) (preProcess : Bool) (sessionId : String)
  deriving DecidableEq, Repr

/-- What an invocation of `main` does: its return value and the operations it
performed on the client library, in order. -/
structure Outcome where
  code : Int
  calls : List Call
  deriving DecidableEq, Repr

/-- The local variables that lines 54-69 read from the command line. -/
structure Options where
  serverUri : String
  label : String
  model : String
  points : String
  pad : Rat
  roi : String
  inputImageFile : String
  preProcess : Bool
  sessionId : String
  outputImageFile : String
  timeout : Int
  printTs : Bool
  deriving DecidableEq, Repr

/-- Lines 54-69: every option is looked up in the whole argument vector. -/
def parseOptions (env : Env) (argv : List String) : Options where
  serverUri := getCmdOption argv "-server" "http://0.0.0.0:5000"
  label := getCmdOption argv "-label" ""
  model := getCmdOption argv "-model" ""
  points := getCmdOption argv "-points" ""
  pad := env.lexical_cast_double (getCmdOption argv "-pad" "20.0")
  roi := getCmdOption argv "-roi" "128x128x128"
  inputImageFile := getCmdOption argv "-image" ""
  preProcess := if cmdOptionExists argv "-crop" then true else false
  sessionId := getCmdOption argv "-session" ""
  outputImageFile := getCmdOption argv "-output" ""
  timeout := env.lexical_cast_int (getCmdOption argv "-timeout" "60")
  printTs := if cmdOptionExists argv "-ts" then true else false

/-! ## The `try` block as a computation with a trace and exceptions -/

/-- A computation inside the `try` block: given the calls made so far it yields a
value or a thrown exception, and the calls made up to that point. -/
def Run (α : Type) : Type := List Call → Except AiaaException α × List Call

/-- A computation that makes no call. -/
def Run.pure {α : Type} (a : α) : Run α := fun tr => (.ok a, tr)

/-- Sequencing: a thrown exception skips the rest. -/
def Run.bind {α β : Type} (x : Run α) (f : α → Run β) : Run β := fun tr =>
  match x tr with
  | (.ok a, tr1) => f a tr1
  | (.error e, tr1) => (.error e, tr1)

instance : Monad Run where
  pure := Run.pure
  bind := Run.bind

/-- Perform one operation of the library: record it, then yield its result. -/
def perform {α : Type} (c : Call) (r : Except AiaaException α) : Run α :=
  fun tr => (r, tr ++ [c])

/-- Lines 96-102: the model is fetched by name when `-model` is given, and is
otherwise the catalog's match for the label among the annotation models. -/
def resolveModel (env : Env) (client : Client) (o : Options) : Run Model :=
  if o.model = "" then do
    let models ← perform (.models client) (env.models client)
    perform (.getMatchingModel models o.label ModelType.annotation)
      (env.getMatchingModel models o.label ModelType.annotation)
  else
    perform (.model client o.model) (env.model client o.model)

/-- The assignment `m.name = name`. -/
def Model.setName (m : Model) (name : String) : Model := { m with name := name }

/-- The assignment `m.padding = padding`. -/
def Model.setPadding (m : Model) (padding : Rat) : Model := { m with padding := padding }

/-- The assignment `m.roi = roi`. -/
def Model.setRoi (m : Model) (roi : Point) : Model := { m with roi := roi }

/-- Lines 110-115: the overrides of the name and of the padding. -/
def overrideNameAndPadding (argv : List String) (o : Options) (m : Model) : Model :=
  let m := if o.model ≠ "" then m.setName o.model else m
  if cmdOptionExists argv "-pad" then m.setPadding o.pad else m

/-- Lines 109-118: the overrides; the ROI override parses the `-roi` value. -/
def applyOverrides (env : Env) (argv : List String) (o : Options) (m : Model) : Run Model :=
  let m := overrideNameAndPadding argv o m
  if cmdOptionExists argv "-roi" then do
    let p ← perform (.stringToPoint o.roi 'x') (env.stringToPoint o.roi 'x')
    pure (m.setRoi p)
  else
    pure m

/-- Lines 92-130: the body of the `try` block.  `o` holds the local variables of
lines 54-69. -/
def tryBlock (env : Env) (argv : List String) (o : Options) : Run Int := do
  let pointSet ← perform (.fromJson o.points) (env.fromJson o.points)
  let client ← perform (.newClient o.serverUri o.timeout) (env.newClient o.serverUri o.timeout)
  let m ← resolveModel env client o
  if m.name = "" then
    pure (-1)
  else do
    let m ← applyOverrides env argv o m
    let ret ← perform
      (.dextr3D client m pointSet o.inputImageFile o.outputImageFile o.preProcess o.sessionId)
      (env.dextr3D client m pointSet o.inputImageFile o.outputImageFile o.preProcess o.sessionId)
    pure ret

/-- The program: `int main(int argc, char **argv)`.  The `catch` clause of line 131
turns a thrown `nvidia::aiaa::exception` into the `return -1` of line 134. -/
def main (env : Env) (argv : List String) : Outcome :=
  if argv.length < 2 || cmdOptionExists argv "-h" then
    ⟨0, []⟩
  else
    let o := parseOptions env argv
    if o.label = "" && o.model = "" then
      ⟨-1, []⟩
    else if o.points = "" then
      ⟨-1, []⟩
    else if o.inputImageFile = "" && o.sessionId = "" then
      ⟨-1, []⟩
    else if o.preProcess && o.inputImageFile = "" then
      ⟨-1, []⟩
    else if o.outputImageFile = "" then
      ⟨-1, []⟩
    else
      match tryBlock env argv o [] with
      | (.ok ret, calls) => ⟨ret, calls⟩
      | (.error _, calls) => ⟨-1, calls⟩

/-! ## Vocabulary of the properties -/

/-- The invocation asks for the usage text: no argument after the program name, or
the token `-h` anywhere. -/
def helpRequested (argv : List String) : Prop :=
  argv.length < 2 ∨ "-h" ∈ argv

instance (argv : List String) : Decidable (helpRequested argv) := by
  unfold helpRequested; infer_instance

/-- A required flag combination is missing: (a) no label and no model, (b) no
points, (c) no image and no session, (d) crop without image, (e) no output. -/
def usageError (o : Options) : Prop :=
  (o.label = "" ∧ o.model = "") ∨ o.points = "" ∨
  (o.inputImageFile = "" ∧ o.sessionId = "") ∨
  (o.preProcess = true ∧ o.inputImageFile = "") ∨ o.outputImageFile = ""

instance (o : Options) : Decidable (usageError o) := by
  unfold usageError; infer_instance

/-- The invocation is not a help request and has no usage error. -/
def passesValidation (env : Env) (argv : List String) : Prop :=
  ¬ helpRequested argv ∧ ¬ usageError (parseOptions env argv)

instance (env : Env) (argv : List String) : Decidable (passesValidation env argv) := by
  unfold passesValidation; infer_instance

/-- The call is the inference call `dextr3D`. -/
def Call.isInference : Call → Bool
  | .dextr3D _ _ _ _ _ _ _ => true
  | _ => false

/-- The call is the catalog fetch `models()`. -/
def Call.isCatalogFetch : Call → Bool
  | .models _ => true
  | _ => false

/-- The call is the by-name fetch `model(name)`. -/
def Call.isModelFetch : Call → Bool
  | .model _ _ => true
  | _ => false

/-- The call is the catalog label match `getMatchingModel`. -/
def Call.isLabelMatch : Call → Bool
  | .getMatchingModel _ _ _ => true
  | _ => false

/-- The result of an operation is a thrown exception. -/
def threw {α : Type} : Except AiaaException α → Bool
  | .ok _ => false
  | .error _ => true

/-- The operation throws when performed with these arguments. -/
def Env.raises (env : Env) : Call → Bool
  | .fromJson s => threw (env.fromJson s)
  | .newClient u t => threw (env.newClient u t)
  | .models c => threw (env.models c)
  | .getMatchingModel ms l t => threw (env.getMatchingModel ms l t)
  | .model c n => threw (env.model c n)
  | .stringToPoint s d => threw (env.stringToPoint s d)
  | .dextr3D c m ps i o p s => threw (env.dextr3D c m ps i o p s)

/-- The model a resolution step (by-name fetch or catalog label match) returns,
when it returns one. -/
def Env.resolved (env : Env) : Call → Option Model
  | .getMatchingModel ms l t => (env.getMatchingModel ms l t).toOption
  | .model c n => (env.model c n).toOption
  | _ => none

/-! ## A scripted client library, for the examples -/

/-- Read a run of decimal digits, as a stream extraction does. -/
def readDigits (acc : Nat) : List Char → Nat
  | [] => acc
  | c :: cs => if c.isDigit then readDigits (acc * 10 + (c.toNat - 48)) cs else acc

/-- Split a character list at every occurrence of the delimiter. -/
def splitAt (delim : Char) : List Char → List (List Char)
  | [] => [[]]
  | c :: cs =>
    if c = delim then [] :: splitAt delim cs
    else
      match splitAt delim cs with
      | [] => [[c]]
      | w :: ws => (c :: w) :: ws

/-- The empty-name sentinel: a default-constructed model. -/
def noModel : Model := ⟨"", [], ModelType.unknown, 20, [128, 128, 128]⟩

/-- The first model of the catalog with the label and the capability, else the
empty-name sentinel. -/
def firstMatch (ms : ModelList) (label : String) (type : ModelType) : Model :=
  (ms.models.find? (fun m => decide (m.type = type ∧ label ∈ m.labels))).getD noModel

/-- A scripted library: the server holds `catalog`, answers a by-name fetch with
`byName`, and the inference call ends with `status`.  Numbers are read digit by
digit (a whole number of units is enough for the examples); the only point set it
can parse is `[[1,2,3]]`. -/
def scripted (catalog : ModelList) (byName : String → Except AiaaException Model)
    (status : Except AiaaException Int) : Env where
  lexical_cast_double := fun s => (readDigits 0 s.toList : Rat)
  lexical_cast_int := fun s => (readDigits 0 s.toList : Int)
  fromJson := fun s =>
    if s = "[[1,2,3]]" then .ok ⟨[[1, 2, 3]]⟩ else .error ⟨104, "cannot parse the point set"⟩
  newClient := fun uri timeout => .ok ⟨uri, timeout⟩
  models := fun _ => .ok catalog
  getMatchingModel := fun ms label type => .ok (firstMatch ms label type)
  model := fun _ name => byName name
  stringToPoint := fun s delim =>
    .ok ((splitAt delim s.toList).map (fun w => (readDigits 0 w : Int)))
  dextr3D := fun _ _ _ _ _ _ _ => status

/-- A catalog with one point-annotation model for the label `liver`, trained with
padding 30 and ROI 96x96x96. -/
def liverCatalog : ModelList :=
  ⟨[⟨"annotation_ct_liver", ["liver"], ModelType.annotation, 30, [96, 96, 96]⟩]⟩

/-- The by-name fetch over a catalog: the entry with that name, else a thrown
not-found exception. -/
def fetchFrom (catalog : ModelList) (name : String) : Except AiaaException Model :=
  match catalog.models.find? (fun m => decide (m.name = name)) with
  | some m => .ok m
  | none => .error ⟨404, "model not found"⟩

/-- The client built by the scripted library from the default URI and timeout. -/
def defaultClient : Client := ⟨"http://0.0.0.0:5000", 60⟩

/-- The invocation `-label liver -points [[1,2,3]] -image in.nii -output out.nii`. -/
def liverArgs : List String :=
  ["aiaa-dextra3d", "-label", "liver", "-points", "[[1,2,3]]", "-image", "in.nii",
   "-output", "out.nii"]

/-! ## Computed forms and further example data -/

/-- Lines 104-130 in computed form: what follows a resolution step that gave `r`,
after the calls `tr`. -/
def afterResolve (env : Env) (argv : List String) (o : Options) (cl : Client) (ps : PointSet)
    (r : Except AiaaException Model) (tr : List Call) : Except AiaaException Int × List Call :=
  match r with
  | .error e => (.error e, tr)
  | .ok m =>
    if m.name = "" then (.ok (-1), tr)
    else if cmdOptionExists argv "-roi" = true then
      match env.stringToPoint o.roi 'x' with
      | .error e => (.error e, tr ++ [.stringToPoint o.roi 'x'])
      | .ok p =>
        (env.dextr3D cl ((overrideNameAndPadding argv o m).setRoi p) ps o.inputImageFile
            o.outputImageFile o.preProcess o.sessionId,
          tr ++ [.stringToPoint o.roi 'x',
            .dextr3D cl ((overrideNameAndPadding argv o m).setRoi p) ps o.inputImageFile
              o.outputImageFile o.preProcess o.sessionId])
    else
      (env.dextr3D cl (overrideNameAndPadding argv o m) ps o.inputImageFile
          o.outputImageFile o.preProcess o.sessionId,
        tr ++ [.dextr3D cl (overrideNameAndPadding argv o m) ps o.inputImageFile
          o.outputImageFile o.preProcess o.sessionId])

/-- The `try` block in computed form: one case per operation result. -/
def tryBlockCases (env : Env) (argv : List String) (o : Options) :
    Except AiaaException Int × List Call :=
  match env.fromJson o.points with
  | .error e => (.error e, [.fromJson o.points])
  | .ok ps =>
    match env.newClient o.serverUri o.timeout with
    | .error e => (.error e, [.fromJson o.points, .newClient o.serverUri o.timeout])
    | .ok cl =>
      if o.model = "" then
        match env.models cl with
        | .error e =>
          (.error e, [.fromJson o.points, .newClient o.serverUri o.timeout, .models cl])
        | .ok ms =>
          afterResolve env argv o cl ps (env.getMatchingModel ms o.label ModelType.annotation)
            [.fromJson o.points, .newClient o.serverUri o.timeout, .models cl,
              .getMatchingModel ms o.label ModelType.annotation]
      else
        afterResolve env argv o cl ps (env.model cl o.model)
          [.fromJson o.points, .newClient o.serverUri o.timeout, .model cl o.model]

/-- The invocation `-model ghost -points [[1,2,3]] -image in.nii -output out.nii`. -/
def ghostArgs : List String :=
  ["aiaa-dextra3d", "-model", "ghost", "-points", "[[1,2,3]]", "-image", "in.nii",
   "-output", "out.nii"]

/-- A catalog whose `liver` model has the padding 20 and the ROI 128x128x128. -/
def plainCatalog : ModelList :=
  ⟨[⟨"annotation_ct_liver", ["liver"], ModelType.annotation, 20, [128, 128, 128]⟩]⟩

/-- Lines 130-134: what `main` returns after the `try` block, which either ended
with a value or with a caught exception. -/
def Outcome.ofTry : Except AiaaException Int × List Call → Outcome
  | (.ok ret, calls) => ⟨ret, calls⟩
  | (.error _, calls) => ⟨-1, calls⟩

/-- The invocation `-model annotation_ct_liver -points [[1,2 -image in.nii -output
out.nii`, whose point set cannot be parsed. -/
def badPointsArgs : List String :=
  ["aiaa-dextra3d", "-model", "annotation_ct_liver", "-points", "[[1,2", "-image",
   "in.nii", "-output", "out.nii"]

/-- A scripted library whose client constructor throws. -/
def noServer : Env :=
  { scripted liverCatalog (fetchFrom liverCatalog) (.ok 0) with
    newClient := fun _ _ => .error ⟨7, "cannot reach the server"⟩ }

/-- A scripted library whose catalog fetch throws. -/
def noCatalog : Env :=
  { scripted liverCatalog (fetchFrom liverCatalog) (.ok 0) with
    models := fun _ => .error ⟨500, "no catalog"⟩ }

/-- The invocation `-model annotation_ct_liver -points [[1,2,3]] -image in.nii
-output out.nii`. -/
def modelArgs : List String :=
  ["aiaa-dextra3d", "-model", "annotation_ct_liver", "-points", "[[1,2,3]]", "-image",
   "in.nii", "-output", "out.nii"]

/-- The model of `liverCatalog`. -/
def liverModel : Model :=
  ⟨"annotation_ct_liver", ["liver"], ModelType.annotation, 30, [96, 96, 96]⟩

/-- The invocation `-label liver -points [[1,2,3]] -image in.nii -session s1 -crop
-output out.nii`. -/
def sessionCropArgs : List String :=
  ["aiaa-dextra3d", "-label", "liver", "-points", "[[1,2,3]]", "-image", "in.nii",
   "-session", "s1", "-crop", "-output", "out.nii"]

/-! ## Lemmas on the command-line helpers and on the trace monad -/

theorem cmdOptionExists_iff_mem (argv : List String) (option : String) :
    cmdOptionExists argv option = true ↔ option ∈ argv := by
  induction argv with
  | nil => simp [cmdOptionExists]
  | cons a rest ih =>
    unfold cmdOptionExists
    by_cases h : a = option
    · simp [h]
    · have h2 : ¬ option = a := fun e => h e.symm
      simp [h, h2, ih]

theorem getCmdOption_first (pre post : List String) (option v defaultVal : String)
    (h : option ∉ pre) :
    getCmdOption (pre ++ option :: v :: post) option defaultVal = v := by
  induction pre with
  | nil => simp [getCmdOption]
  | cons a rest ih =>
    have ha : ¬ a = option := fun e => h (by simp [e])
    have hr : option ∉ rest := fun e => h (by simp [e])
    simp [getCmdOption, ha, ih hr]

theorem Run.bind_apply {α β : Type} (x : Run α) (f : α → Run β) (tr : List Call) :
    (x >>= f) tr =
      match x tr with
      | (.ok a, tr1) => f a tr1
      | (.error e, tr1) => (.error e, tr1) := rfl

theorem Run.pure_apply {α : Type} (a : α) (tr : List Call) :
    (pure a : Run α) tr = (.ok a, tr) := rfl

theorem perform_apply {α : Type} (c : Call) (r : Except AiaaException α) (tr : List Call) :
    perform c r tr = (r, tr ++ [c]) := rfl

theorem Run.ite_apply {α : Type} (c : Prop) [Decidable c] (x y : Run α) (tr : List Call) :
    (if c then x else y) tr = if c then x tr else y tr := by
  split <;> rfl

/-- A help request makes `main` return at line 51. -/
theorem main_of_help (env : Env) (argv : List String) (h : helpRequested argv) :
    main env argv = ⟨0, []⟩ := by
  have hc : (decide (argv.length < 2) || cmdOptionExists argv "-h") = true := by
    rcases h with h | h
    · simp [h]
    · simp [(cmdOptionExists_iff_mem argv "-h").mpr h]
  unfold main
  rw [if_pos hc]

/-- Without a help request `main` goes on to the checks of lines 71-90. -/
theorem main_of_not_help (env : Env) (argv : List String) (h : ¬ helpRequested argv) :
    main env argv =
      if usageError (parseOptions env argv) then ⟨-1, []⟩
      else
        match tryBlock env argv (parseOptions env argv) [] with
        | (.ok ret, calls) => ⟨ret, calls⟩
        | (.error _, calls) => ⟨-1, calls⟩ := by
  have hc : ¬ ((decide (argv.length < 2) || cmdOptionExists argv "-h") = true) := by
    intro hc
    apply h
    rcases Bool.or_eq_true _ _ ▸ hc with h1 | h1
    · exact Or.inl (of_decide_eq_true h1)
    · exact Or.inr ((cmdOptionExists_iff_mem argv "-h").mp h1)
  unfold main
  rw [if_neg hc]
  simp only [usageError]
  by_cases h1 : (parseOptions env argv).label = "" ∧ (parseOptions env argv).model = ""
  · simp [h1]
  by_cases h2 : (parseOptions env argv).points = ""
  · simp [h2]
  by_cases h3 : (parseOptions env argv).inputImageFile = "" ∧ (parseOptions env argv).sessionId = ""
  · simp [h3]
  by_cases h4 : (parseOptions env argv).preProcess = true ∧ (parseOptions env argv).inputImageFile = ""
  · simp [h4]
  by_cases h5 : (parseOptions env argv).outputImageFile = ""
  · simp [h5]
  have h1b : ¬ ((decide ((parseOptions env argv).label = "") && decide ((parseOptions env argv).model = "")) = true) := by
    simpa using h1
  have h3b : ¬ ((decide ((parseOptions env argv).inputImageFile = "") && decide ((parseOptions env argv).sessionId = "")) = true) := by
    simpa using h3
  have h4b : ¬ (((parseOptions env argv).preProcess && decide ((parseOptions env argv).inputImageFile = "")) = true) := by
    simpa using h4
  have hu : ¬ (((parseOptions env argv).label = "" ∧ (parseOptions env argv).model = "") ∨
      (parseOptions env argv).points = "" ∨
      ((parseOptions env argv).inputImageFile = "" ∧ (parseOptions env argv).sessionId = "") ∨
      ((parseOptions env argv).preProcess = true ∧ (parseOptions env argv).inputImageFile = "") ∨
      (parseOptions env argv).outputImageFile = "") := by
    rintro (h | h | h | h | h)
    · exact h1 h
    · exact h2 h
    · exact h3 h
    · exact h4 h
    · exact h5 h
  rw [if_neg hu]
  simp only [if_neg h1b, if_neg h2, if_neg h3b, if_neg h4b, if_neg h5]

/-- The resolution step, computed. -/
theorem resolveModel_apply (env : Env) (client : Client) (o : Options) (tr : List Call) :
    resolveModel env client o tr =
      if o.model = "" then
        match env.models client with
        | .ok ms =>
          (env.getMatchingModel ms o.label ModelType.annotation,
            tr ++ [.models client, .getMatchingModel ms o.label ModelType.annotation])
        | .error e => (.error e, tr ++ [.models client])
      else (env.model client o.model, tr ++ [.model client o.model]) := by
  unfold resolveModel
  by_cases h : o.model = ""
  · simp only [h, if_true, Run.bind_apply, perform_apply]
    cases env.models client <;> simp
  · simp only [h, if_false, perform_apply]

/-- The override step, computed. -/
theorem applyOverrides_apply (env : Env) (argv : List String) (o : Options) (m : Model)
    (tr : List Call) :
    applyOverrides env argv o m tr =
      if cmdOptionExists argv "-roi" = true then
        match env.stringToPoint o.roi 'x' with
        | .ok p =>
          (.ok ((overrideNameAndPadding argv o m).setRoi p),
            tr ++ [.stringToPoint o.roi 'x'])
        | .error e => (.error e, tr ++ [.stringToPoint o.roi 'x'])
      else (.ok (overrideNameAndPadding argv o m), tr) := by
  unfold applyOverrides
  by_cases h : cmdOptionExists argv "-roi" = true
  · simp only [h, if_true, Run.bind_apply, perform_apply, Run.pure_apply]
    cases env.stringToPoint o.roi 'x' <;> rfl
  · simp only [h, Run.pure_apply]
    rfl

/-- The name of the overridden model. -/
theorem overrideNameAndPadding_name (argv : List String) (o : Options) (m : Model) :
    (overrideNameAndPadding argv o m).name = if o.model = "" then m.name else o.model := by
  unfold overrideNameAndPadding
  by_cases h : o.model = "" <;> by_cases hp : cmdOptionExists argv "-pad" = true <;>
    simp [h, hp, Model.setName, Model.setPadding]

/-- The padding of the overridden model. -/
theorem overrideNameAndPadding_padding (argv : List String) (o : Options) (m : Model) :
    (overrideNameAndPadding argv o m).padding =
      if cmdOptionExists argv "-pad" = true then o.pad else m.padding := by
  unfold overrideNameAndPadding
  by_cases h : o.model = "" <;> by_cases hp : cmdOptionExists argv "-pad" = true <;>
    simp [h, hp, Model.setName, Model.setPadding]

/-- The ROI is not touched by the overrides of the name and the padding. -/
theorem overrideNameAndPadding_roi (argv : List String) (o : Options) (m : Model) :
    (overrideNameAndPadding argv o m).roi = m.roi := by
  unfold overrideNameAndPadding
  by_cases h : o.model = "" <;> by_cases hp : cmdOptionExists argv "-pad" = true <;>
    simp [h, hp, Model.setName, Model.setPadding]

/-- Without `-model` and `-pad` the model is left as resolved. -/
theorem overrideNameAndPadding_id (argv : List String) (o : Options) (m : Model)
    (hm : o.model = "") (hp : cmdOptionExists argv "-pad" = false) :
    overrideNameAndPadding argv o m = m := by
  unfold overrideNameAndPadding
  simp [hm, hp]

/-- The `try` block equals its computed form. -/
theorem tryBlock_apply (env : Env) (argv : List String) (o : Options) :
    tryBlock env argv o [] = tryBlockCases env argv o := by
  simp only [tryBlock, tryBlockCases, afterResolve, Run.bind_apply, perform_apply,
    Run.ite_apply, resolveModel_apply, applyOverrides_apply]
  cases env.fromJson o.points with
  | error e => rfl
  | ok ps =>
    cases env.newClient o.serverUri o.timeout with
    | error e => rfl
    | ok cl =>
      simp only [List.nil_append, List.cons_append]
      by_cases hm : o.model = ""
      · simp only [hm, if_true]
        cases env.models cl with
        | error e => rfl
        | ok ms =>
          simp only
          cases env.getMatchingModel ms o.label ModelType.annotation with
          | error e => rfl
          | ok m =>
            simp only
            by_cases hn : m.name = ""
            · simp only [hn, if_true]
              rfl
            · simp only [hn, if_false]
              by_cases hr : cmdOptionExists argv "-roi" = true
              · simp only [hr, if_true]
                cases env.stringToPoint o.roi 'x' with
                | error e => rfl
                | ok p =>
                  simp only [List.cons_append, List.nil_append]
                  generalize env.dextr3D _ _ _ _ _ _ _ = r
                  cases r <;> rfl
              · simp only [hr, Bool.false_eq_true, if_false, List.cons_append, List.nil_append]
                generalize env.dextr3D _ _ _ _ _ _ _ = r
                cases r <;> rfl
      · simp only [hm, if_false]
        cases env.model cl o.model with
        | error e => rfl
        | ok m =>
          simp only
          by_cases hn : m.name = ""
          · simp only [hn, if_true]
            rfl
          · simp only [hn, if_false]
            by_cases hr : cmdOptionExists argv "-roi" = true
            · simp only [hr, if_true]
              cases env.stringToPoint o.roi 'x' with
              | error e => rfl
              | ok p =>
                simp only [List.cons_append, List.nil_append]
                generalize env.dextr3D _ _ _ _ _ _ _ = r
                cases r <;> rfl
            · simp only [hr, Bool.false_eq_true, if_false, List.cons_append, List.nil_append]
              generalize env.dextr3D _ _ _ _ _ _ _ = r
              cases r <;> rfl

/-- A validated invocation runs the `try` block; a thrown exception gives -1. -/
theorem main_of_valid (env : Env) (argv : List String) (hv : passesValidation env argv) :
    main env argv =
      match tryBlockCases env argv (parseOptions env argv) with
      | (.ok ret, calls) => ⟨ret, calls⟩
      | (.error _, calls) => ⟨-1, calls⟩ := by
  rw [main_of_not_help env argv hv.1, if_neg hv.2, tryBlock_apply]

/-- In the `try` block only the last operation can have thrown, and then the block
ends with that exception. -/
theorem tryBlock_raises (env : Env) (argv : List String) (o : Options) :
    (∀ c ∈ (tryBlockCases env argv o).2.dropLast, env.raises c = false) ∧
    (∀ c, (tryBlockCases env argv o).2.getLast? = some c → env.raises c = true →
      ∃ e, (tryBlockCases env argv o).1 = .error e) := by
  simp only [tryBlockCases, afterResolve]
  repeat' split
  all_goals simp_all [Env.raises, threw]
  all_goals
    generalize env.dextr3D _ _ _ _ _ _ _ = r
    cases r <;> simp [threw]

/-- What an inference call in the trace tells: the earlier operations succeeded, the
resolved model has a name, and the model passed on is the resolved one with the
overrides applied. -/
theorem inference_call_inv (env : Env) (argv : List String) (o : Options)
    (cl : Client) (m : Model) (ps : PointSet) (i out : String) (p : Bool) (s : String)
    (h : Call.dextr3D cl m ps i out p s ∈ (tryBlockCases env argv o).2) :
    env.fromJson o.points = .ok ps ∧ env.newClient o.serverUri o.timeout = .ok cl ∧
    i = o.inputImageFile ∧ out = o.outputImageFile ∧ p = o.preProcess ∧ s = o.sessionId ∧
    ∃ m0,
      (if o.model = "" then
        ∃ ms, env.models cl = .ok ms ∧
          env.getMatchingModel ms o.label ModelType.annotation = .ok m0
       else env.model cl o.model = .ok m0) ∧
      m0.name ≠ "" ∧
      (if cmdOptionExists argv "-roi" = true then
        ∃ pt, env.stringToPoint o.roi 'x' = .ok pt ∧
          m = (overrideNameAndPadding argv o m0).setRoi pt
       else m = overrideNameAndPadding argv o m0) := by
  simp only [tryBlockCases, afterResolve] at h
  repeat' split at h
  all_goals simp_all

/-- When no operation throws and the resolved model has a name, the `try` block makes
exactly one inference call and ends with its status. -/
theorem tryBlock_inference (env : Env) (argv : List String) (o : Options)
    (hraise : ∀ c ∈ (tryBlockCases env argv o).2, env.raises c = false)
    (hres : ∀ c ∈ (tryBlockCases env argv o).2, ∀ m, env.resolved c = some m → m.name ≠ "") :
    ∃ cl m ps ret,
      (tryBlockCases env argv o).2.filter Call.isInference =
        [.dextr3D cl m ps o.inputImageFile o.outputImageFile o.preProcess o.sessionId] ∧
      env.dextr3D cl m ps o.inputImageFile o.outputImageFile o.preProcess o.sessionId = .ok ret ∧
      (tryBlockCases env argv o).1 = .ok ret := by
  simp only [tryBlockCases, afterResolve] at hraise hres ⊢
  repeat' split
  all_goals simp_all [Env.raises, threw, Env.resolved, Call.isInference, Except.toOption]
  all_goals
    generalize hd : env.dextr3D _ _ _ _ _ _ _ = r at *
    cases r <;> simp_all [threw]
  all_goals exact ⟨_, _, _, ⟨rfl, rfl, rfl⟩, hd⟩

/-- When every resolution step of the run gives no named model, the `try` block makes
no inference call and ends with -1 or with an exception. -/
theorem tryBlock_unresolved (env : Env) (argv : List String) (o : Options)
    (hres : ∀ c ∈ (tryBlockCases env argv o).2, ∀ m, env.resolved c = some m → m.name = "") :
    (tryBlockCases env argv o).2.filter Call.isInference = [] ∧
    ((tryBlockCases env argv o).1 = .ok (-1) ∨ ∃ e, (tryBlockCases env argv o).1 = .error e) := by
  simp only [tryBlockCases, afterResolve] at hres ⊢
  repeat' split
  all_goals simp_all [Env.resolved, Call.isInference, Except.toOption]

/-- The fetches of the resolution step. -/
theorem tryBlock_fetches (env : Env) (argv : List String) (o : Options) :
    (o.model ≠ "" →
      (tryBlockCases env argv o).2.filter Call.isCatalogFetch = [] ∧
      (tryBlockCases env argv o).2.filter Call.isLabelMatch = [] ∧
      ∀ ps cl, env.fromJson o.points = .ok ps → env.newClient o.serverUri o.timeout = .ok cl →
        (tryBlockCases env argv o).2.filter Call.isModelFetch = [.model cl o.model]) ∧
    (o.model = "" →
      (tryBlockCases env argv o).2.filter Call.isModelFetch = [] ∧
      ∀ ps cl, env.fromJson o.points = .ok ps → env.newClient o.serverUri o.timeout = .ok cl →
        (tryBlockCases env argv o).2.filter Call.isCatalogFetch = [.models cl] ∧
        ∀ ms, env.models cl = .ok ms →
          (tryBlockCases env argv o).2.filter Call.isLabelMatch =
            [.getMatchingModel ms o.label ModelType.annotation]) := by
  simp only [tryBlockCases, afterResolve]
  repeat' split
  all_goals simp_all [Call.isCatalogFetch, Call.isLabelMatch, Call.isModelFetch]

/-- The success path: when the operations before the inference call succeed and the
resolved model `m0` has a name, exactly one inference call is made, with `m0` after
the overrides. -/
theorem tryBlock_reaches_inference (env : Env) (argv : List String) (o : Options)
    (ps : PointSet) (cl : Client) (m0 : Model)
    (h1 : env.fromJson o.points = .ok ps)
    (h2 : env.newClient o.serverUri o.timeout = .ok cl)
    (h3 : if o.model = "" then
        ∃ ms, env.models cl = .ok ms ∧
          env.getMatchingModel ms o.label ModelType.annotation = .ok m0
      else env.model cl o.model = .ok m0)
    (hn : m0.name ≠ "")
    (h4 : cmdOptionExists argv "-roi" = true → ∃ pt, env.stringToPoint o.roi 'x' = .ok pt) :
    ∃ m, (tryBlockCases env argv o).2.filter Call.isInference =
        [.dextr3D cl m ps o.inputImageFile o.outputImageFile o.preProcess o.sessionId] ∧
      m.name = (overrideNameAndPadding argv o m0).name ∧
      m.padding = (overrideNameAndPadding argv o m0).padding ∧
      (cmdOptionExists argv "-roi" = false → m = overrideNameAndPadding argv o m0) := by
  simp only [tryBlockCases, afterResolve]
  repeat' split
  all_goals simp_all [Call.isInference, Model.setRoi]

/-- An invocation that does not pass validation performs no operation. -/
theorem main_calls_of_invalid (env : Env) (argv : List String)
    (hv : ¬ passesValidation env argv) : (main env argv).calls = [] := by
  by_cases hh : helpRequested argv
  · rw [main_of_help env argv hh]
  · have hu : usageError (parseOptions env argv) := by
      by_contra hu
      exact hv ⟨hh, hu⟩
    rw [main_of_not_help env argv hh, if_pos hu]

/-- The calls and the return value of a validated invocation, from the `try` block. -/
theorem main_calls_of_valid (env : Env) (argv : List String) (hv : passesValidation env argv) :
    (main env argv).calls = (tryBlockCases env argv (parseOptions env argv)).2 ∧
    (∀ e, (tryBlockCases env argv (parseOptions env argv)).1 = .error e →
      (main env argv).code = -1) ∧
    (∀ ret, (tryBlockCases env argv (parseOptions env argv)).1 = .ok ret →
      (main env argv).code = ret) := by
  rw [main_of_valid env argv hv]
  rcases tryBlockCases env argv (parseOptions env argv) with ⟨r, tr⟩
  cases r with
  | error e => simp
  | ok ret => simp

/-- A validated invocation returns what the `try` block leaves. -/
theorem main_eq_ofTry (env : Env) (argv : List String) (hv : passesValidation env argv) :
    main env argv = Outcome.ofTry (tryBlockCases env argv (parseOptions env argv)) := by
  rw [main_of_valid env argv hv]
  rcases tryBlockCases env argv (parseOptions env argv) with ⟨r, tr⟩
  cases r <;> rfl

/-- Once the point set is parsed and the client built, the `try` block goes on from
the by-name fetch when `-model` is given. -/
theorem tryBlockCases_of_model (env : Env) (argv : List String) (o : Options)
    (ps : PointSet) (cl : Client)
    (h1 : env.fromJson o.points = .ok ps)
    (h2 : env.newClient o.serverUri o.timeout = .ok cl) (hX : o.model ≠ "") :
    tryBlockCases env argv o =
      afterResolve env argv o cl ps (env.model cl o.model)
        [.fromJson o.points, .newClient o.serverUri o.timeout, .model cl o.model] := by
  simp only [tryBlockCases, h1, h2, if_neg hX]

/-- Once the point set is parsed, the client built and the catalog fetched, the `try`
block goes on from the label match when `-model` is empty. -/
theorem tryBlockCases_of_label (env : Env) (argv : List String) (o : Options)
    (ps : PointSet) (cl : Client) (ms : ModelList)
    (h1 : env.fromJson o.points = .ok ps)
    (h2 : env.newClient o.serverUri o.timeout = .ok cl) (hX : o.model = "")
    (h3 : env.models cl = .ok ms) :
    tryBlockCases env argv o =
      afterResolve env argv o cl ps (env.getMatchingModel ms o.label ModelType.annotation)
        [.fromJson o.points, .newClient o.serverUri o.timeout, .models cl,
          .getMatchingModel ms o.label ModelType.annotation] := by
  simp only [tryBlockCases, h1, h2, if_pos hX, h3]

/-! ## The usage text and the validation (C5, C1) -/

/-- C5: an argument vector with no argument after the program name, or with the
token `-h` anywhere, makes `main` return 0 without any call to the client library,
whatever the other flags are. -/
theorem help_returns_zero_without_calls (env : Env) (argv : List String)
    (h : argv.length < 2 ∨ "-h" ∈ argv) :
    main env argv = ⟨0, []⟩ :=
  main_of_help env argv h

/-- C5 at `aiaa-dextra3d -crop -h`: an invocation that would fail every check. -/
theorem help_returns_zero_without_calls_witness :
    (["aiaa-dextra3d", "-crop", "-h"].length < 2 ∨ "-h" ∈ ["aiaa-dextra3d", "-crop", "-h"]) ∧
    main (scripted liverCatalog (fetchFrom liverCatalog) (.ok 0))
      ["aiaa-dextra3d", "-crop", "-h"] = ⟨0, []⟩ :=
  ⟨by decide,
    help_returns_zero_without_calls (scripted liverCatalog (fetchFrom liverCatalog) (.ok 0))
      ["aiaa-dextra3d", "-crop", "-h"] (by decide)⟩

/-- C1: in a non-help invocation, when (a) `-label` and `-model` are both empty, or
(b) `-points` is empty, or (c) `-image` and `-session` are both empty, or (d) `-crop`
is set and `-image` is empty, or (e) `-output` is empty, `main` returns -1 and no
operation of the client library is performed. -/
theorem usage_error_returns_minus_one_without_calls (env : Env) (argv : List String)
    (hh : ¬ (argv.length < 2 ∨ "-h" ∈ argv))
    (hu : (getCmdOption argv "-label" "" = "" ∧ getCmdOption argv "-model" "" = "") ∨
      getCmdOption argv "-points" "" = "" ∨
      (getCmdOption argv "-image" "" = "" ∧ getCmdOption argv "-session" "" = "") ∨
      ("-crop" ∈ argv ∧ getCmdOption argv "-image" "" = "") ∨
      getCmdOption argv "-output" "" = "") :
    main env argv = ⟨-1, []⟩ := by
  have hu2 : usageError (parseOptions env argv) := by
    unfold usageError parseOptions
    rcases hu with h | h | h | h | h
    · exact Or.inl h
    · exact Or.inr (Or.inl h)
    · exact Or.inr (Or.inr (Or.inl h))
    · refine Or.inr (Or.inr (Or.inr (Or.inl ⟨?_, h.2⟩)))
      simp [(cmdOptionExists_iff_mem argv "-crop").mpr h.1]
    · exact Or.inr (Or.inr (Or.inr (Or.inr h)))
  rw [main_of_not_help env argv hh, if_pos hu2]

/-- C1 at `-label liver -points [[1,2,3]] -session s1 -crop -output out.nii`: check
(d) fails. -/
theorem usage_error_returns_minus_one_without_calls_witness :
    main (scripted liverCatalog (fetchFrom liverCatalog) (.ok 0))
      ["aiaa-dextra3d", "-label", "liver", "-points", "[[1,2,3]]", "-session", "s1", "-crop",
        "-output", "out.nii"] = ⟨-1, []⟩ :=
  usage_error_returns_minus_one_without_calls
    (scripted liverCatalog (fetchFrom liverCatalog) (.ok 0))
    ["aiaa-dextra3d", "-label", "liver", "-points", "[[1,2,3]]", "-session", "s1", "-crop",
      "-output", "out.nii"]
    (by decide) (Or.inr (Or.inr (Or.inr (Or.inl (by decide)))))

/-! ## Exceptions of the client library (C4) -/

/-- C4: in a validated invocation, when an operation of the client library (point-set
parsing, client construction, catalog fetch, label match, model fetch, ROI parsing,
inference call) throws, `main` returns -1 and performs no operation after it. -/
theorem exception_returns_minus_one_and_stops (env : Env) (argv : List String)
    (hv : passesValidation env argv) (pre post : List Call) (c : Call)
    (hc : (main env argv).calls = pre ++ c :: post) (hr : env.raises c = true) :
    (main env argv).code = -1 ∧ post = [] := by
  obtain ⟨hcalls, herr, -⟩ := main_calls_of_valid env argv hv
  obtain ⟨hinit, hlast⟩ := tryBlock_raises env argv (parseOptions env argv)
  rw [hcalls] at hc
  have hpost : post = [] := by
    by_contra hne
    have hmem : c ∈ (tryBlockCases env argv (parseOptions env argv)).2.dropLast := by
      rw [hc]
      obtain ⟨q, l, rfl⟩ : ∃ q l, post = q ++ [l] :=
        ⟨post.dropLast, post.getLast hne, (List.dropLast_append_getLast hne).symm⟩
      have : pre ++ c :: (q ++ [l]) = (pre ++ c :: q) ++ [l] := by simp
      rw [this, List.dropLast_concat]
      simp
    have := hinit c hmem
    rw [hr] at this
    exact Bool.noConfusion this
  refine ⟨?_, hpost⟩
  subst hpost
  have hl : (tryBlockCases env argv (parseOptions env argv)).2.getLast? = some c := by
    rw [hc]
    simp
  obtain ⟨e, he⟩ := hlast c hl hr
  exact herr e he

/-- C4 at the `liver` invocation when the inference call throws: it is the last call
and `main` returns -1. -/
theorem exception_returns_minus_one_and_stops_witness :
    passesValidation (scripted liverCatalog (fetchFrom liverCatalog) (.error ⟨500, "server"⟩))
      liverArgs ∧
    (main (scripted liverCatalog (fetchFrom liverCatalog) (.error ⟨500, "server"⟩))
      liverArgs).code = -1 :=
  ⟨by decide,
    (exception_returns_minus_one_and_stops
      (scripted liverCatalog (fetchFrom liverCatalog) (.error ⟨500, "server"⟩)) liverArgs
      (by decide)
      [.fromJson "[[1,2,3]]", .newClient "http://0.0.0.0:5000" 60, .models defaultClient,
        .getMatchingModel liverCatalog "liver" ModelType.annotation]
      []
      (.dextr3D defaultClient
        ⟨"annotation_ct_liver", ["liver"], ModelType.annotation, 30, [96, 96, 96]⟩
        ⟨[[1, 2, 3]]⟩ "in.nii" "out.nii" false "")
      (by decide) (by decide)).1⟩

/-! ## The inference call and the exit code (C2, C3) -/

/-- C2: in a validated invocation in which no operation of the client library throws
and every resolution step gives a model with a non-empty name, `main` makes exactly
one inference call (with the image, output, crop flag and session of the command
line) and returns the status that call returned, whatever that status is. -/
theorem exit_code_is_inference_status (env : Env) (argv : List String)
    (hv : passesValidation env argv)
    (hraise : ∀ c ∈ (main env argv).calls, env.raises c = false)
    (hres : ∀ c ∈ (main env argv).calls, ∀ m, env.resolved c = some m → m.name ≠ "") :
    ∃ cl m ps,
      (main env argv).calls.filter Call.isInference =
        [.dextr3D cl m ps (parseOptions env argv).inputImageFile
          (parseOptions env argv).outputImageFile (parseOptions env argv).preProcess
          (parseOptions env argv).sessionId] ∧
      env.dextr3D cl m ps (parseOptions env argv).inputImageFile
          (parseOptions env argv).outputImageFile (parseOptions env argv).preProcess
          (parseOptions env argv).sessionId = .ok (main env argv).code := by
  obtain ⟨hcalls, -, hok⟩ := main_calls_of_valid env argv hv
  rw [hcalls] at hraise hres
  obtain ⟨cl, m, ps, ret, hf, hd, hr⟩ :=
    tryBlock_inference env argv (parseOptions env argv) hraise hres
  refine ⟨cl, m, ps, ?_, ?_⟩
  · rw [hcalls, hf]
  · rw [hok ret hr, hd]

/-- C2 at the `liver` invocation when the inference call returns the status 7. -/
theorem exit_code_is_inference_status_witness :
    passesValidation (scripted liverCatalog (fetchFrom liverCatalog) (.ok 7)) liverArgs ∧
    ∃ cl m ps,
      (main (scripted liverCatalog (fetchFrom liverCatalog) (.ok 7)) liverArgs).calls.filter
          Call.isInference = [.dextr3D cl m ps "in.nii" "out.nii" false ""] ∧
      (scripted liverCatalog (fetchFrom liverCatalog) (.ok 7)).dextr3D cl m ps
          "in.nii" "out.nii" false "" = .ok 7 :=
  ⟨by decide,
    exit_code_is_inference_status (scripted liverCatalog (fetchFrom liverCatalog) (.ok 7))
      liverArgs (by decide) (by decide) (by decide)⟩

/-- C3: in a validated invocation in which every resolution step (by-name fetch or
catalog label match) either throws or returns the empty-name sentinel, `main` returns
-1 and makes no inference call. -/
theorem unresolved_model_returns_minus_one (env : Env) (argv : List String)
    (hv : passesValidation env argv)
    (hres : ∀ c ∈ (main env argv).calls, ∀ m, env.resolved c = some m → m.name = "") :
    (main env argv).code = -1 ∧ (main env argv).calls.filter Call.isInference = [] := by
  obtain ⟨hcalls, herr, hok⟩ := main_calls_of_valid env argv hv
  rw [hcalls] at hres
  obtain ⟨hf, hr⟩ := tryBlock_unresolved env argv (parseOptions env argv) hres
  refine ⟨?_, by rw [hcalls, hf]⟩
  rcases hr with hr | ⟨e, hr⟩
  · exact hok _ hr
  · exact herr e hr

/-- C3 at `-model ghost` against a server that answers with the empty-name sentinel. -/
theorem unresolved_model_returns_minus_one_witness :
    passesValidation (scripted ⟨[]⟩ (fun _ => .ok noModel) (.ok 0)) ghostArgs ∧
    (main (scripted ⟨[]⟩ (fun _ => .ok noModel) (.ok 0)) ghostArgs).code = -1 ∧
    (main (scripted ⟨[]⟩ (fun _ => .ok noModel) (.ok 0)) ghostArgs).calls.filter
      Call.isInference = [] :=
  ⟨by decide,
    unresolved_model_returns_minus_one (scripted ⟨[]⟩ (fun _ => .ok noModel) (.ok 0))
      ghostArgs (by decide) (by decide)⟩

/-! ## Model resolution (C10) -/

/-- C10 fails when model resolution is not reached or the catalog is not returned:
with an unparsable point set, or with a client constructor that throws, a validated
`-model` invocation makes no by-name fetch at all; and when the catalog fetch throws,
a validated `-label` invocation fetches the catalog once and selects no match. -/
theorem resolution_fetches_counterexample :
    (passesValidation (scripted liverCatalog (fetchFrom liverCatalog) (.ok 0)) badPointsArgs ∧
      getCmdOption badPointsArgs "-model" "" = "annotation_ct_liver" ∧
      main (scripted liverCatalog (fetchFrom liverCatalog) (.ok 0)) badPointsArgs =
        ⟨-1, [.fromJson "[[1,2"]⟩ ∧
      (main (scripted liverCatalog (fetchFrom liverCatalog) (.ok 0)) badPointsArgs).calls.filter
        Call.isModelFetch = []) ∧
    (passesValidation noServer modelArgs ∧
      getCmdOption modelArgs "-model" "" = "annotation_ct_liver" ∧
      main noServer modelArgs =
        ⟨-1, [.fromJson "[[1,2,3]]", .newClient "http://0.0.0.0:5000" 60]⟩ ∧
      (main noServer modelArgs).calls.filter Call.isModelFetch = []) ∧
    (passesValidation noCatalog liverArgs ∧
      getCmdOption liverArgs "-model" "" = "" ∧
      main noCatalog liverArgs =
        ⟨-1, [.fromJson "[[1,2,3]]", .newClient "http://0.0.0.0:5000" 60,
          .models defaultClient]⟩ ∧
      (main noCatalog liverArgs).calls.filter Call.isLabelMatch = []) :=
  ⟨⟨by decide, by decide, by decide, by decide⟩,
   ⟨by decide, by decide, by decide, by decide⟩,
   ⟨by decide, by decide, by decide, by decide⟩⟩

/-- C10 amended: in a validated invocation in which the point set is parsed and the
client is built, when `-model` is non-empty exactly one by-name fetch of that model
is made, the catalog is not fetched, no label match is made, and `main` goes on
(lines 104-134) with what that fetch returned; when `-model` is empty the catalog is
fetched exactly once, no by-name fetch is made, and when the catalog is returned
exactly one label match is made, for `-label` among the annotation models, and `main`
goes on with what that match returned.  Whether or not resolution is reached, a
non-empty `-model` never leads to a catalog fetch or a label match, and an empty one
never to a by-name fetch. -/
theorem resolution_fetches (env : Env) (argv : List String)
    (hv : passesValidation env argv) :
    ((parseOptions env argv).model ≠ "" →
      (main env argv).calls.filter Call.isCatalogFetch = [] ∧
      (main env argv).calls.filter Call.isLabelMatch = [] ∧
      ∀ ps cl, env.fromJson (parseOptions env argv).points = .ok ps →
        env.newClient (parseOptions env argv).serverUri (parseOptions env argv).timeout = .ok cl →
        (main env argv).calls.filter Call.isModelFetch =
          [.model cl (parseOptions env argv).model] ∧
        main env argv =
          Outcome.ofTry
            (afterResolve env argv (parseOptions env argv) cl ps
              (env.model cl (parseOptions env argv).model)
              [.fromJson (parseOptions env argv).points,
                .newClient (parseOptions env argv).serverUri (parseOptions env argv).timeout,
                .model cl (parseOptions env argv).model])) ∧
    ((parseOptions env argv).model = "" →
      (main env argv).calls.filter Call.isModelFetch = [] ∧
      ∀ ps cl, env.fromJson (parseOptions env argv).points = .ok ps →
        env.newClient (parseOptions env argv).serverUri (parseOptions env argv).timeout = .ok cl →
        (main env argv).calls.filter Call.isCatalogFetch = [.models cl] ∧
        ∀ ms, env.models cl = .ok ms →
          (main env argv).calls.filter Call.isLabelMatch =
            [.getMatchingModel ms (parseOptions env argv).label ModelType.annotation] ∧
          main env argv =
            Outcome.ofTry
              (afterResolve env argv (parseOptions env argv) cl ps
                (env.getMatchingModel ms (parseOptions env argv).label ModelType.annotation)
                [.fromJson (parseOptions env argv).points,
                  .newClient (parseOptions env argv).serverUri (parseOptions env argv).timeout,
                  .models cl,
                  .getMatchingModel ms (parseOptions env argv).label ModelType.annotation])) := by
  have hf := tryBlock_fetches env argv (parseOptions env argv)
  have hcalls := (main_calls_of_valid env argv hv).1
  constructor
  · intro hX
    obtain ⟨hc, hl, hm⟩ := hf.1 hX
    refine ⟨by rw [hcalls, hc], by rw [hcalls, hl], ?_⟩
    intro ps cl h1 h2
    refine ⟨by rw [hcalls, hm ps cl h1 h2], ?_⟩
    rw [main_eq_ofTry env argv hv,
      tryBlockCases_of_model env argv (parseOptions env argv) ps cl h1 h2 hX]
  · intro hX
    obtain ⟨hm, hrest⟩ := hf.2 hX
    refine ⟨by rw [hcalls, hm], ?_⟩
    intro ps cl h1 h2
    obtain ⟨hc, hl⟩ := hrest ps cl h1 h2
    refine ⟨by rw [hcalls, hc], ?_⟩
    intro ms h3
    refine ⟨by rw [hcalls, hl ms h3], ?_⟩
    rw [main_eq_ofTry env argv hv,
      tryBlockCases_of_label env argv (parseOptions env argv) ps cl ms h1 h2 hX h3]

/-- Amended C10 at `-model annotation_ct_liver -label spleen ...`: one by-name fetch,
the label is not looked at, and `main` goes on with the fetched model to the
inference call. -/
theorem resolution_fetches_witness :
    passesValidation (scripted liverCatalog (fetchFrom liverCatalog) (.ok 0))
      ["aiaa-dextra3d", "-model", "annotation_ct_liver", "-label", "spleen", "-points",
        "[[1,2,3]]", "-image", "in.nii", "-output", "out.nii"] ∧
    (main (scripted liverCatalog (fetchFrom liverCatalog) (.ok 0))
      ["aiaa-dextra3d", "-model", "annotation_ct_liver", "-label", "spleen", "-points",
        "[[1,2,3]]", "-image", "in.nii", "-output", "out.nii"]).calls.filter
      Call.isModelFetch = [.model defaultClient "annotation_ct_liver"] ∧
    main (scripted liverCatalog (fetchFrom liverCatalog) (.ok 0))
      ["aiaa-dextra3d", "-model", "annotation_ct_liver", "-label", "spleen", "-points",
        "[[1,2,3]]", "-image", "in.nii", "-output", "out.nii"] =
      ⟨0, [.fromJson "[[1,2,3]]", .newClient "http://0.0.0.0:5000" 60,
        .model defaultClient "annotation_ct_liver",
        .dextr3D defaultClient liverModel ⟨[[1, 2, 3]]⟩ "in.nii" "out.nii" false ""]⟩ :=
  ⟨by decide,
    ((resolution_fetches (scripted liverCatalog (fetchFrom liverCatalog) (.ok 0))
      ["aiaa-dextra3d", "-model", "annotation_ct_liver", "-label", "spleen", "-points",
        "[[1,2,3]]", "-image", "in.nii", "-output", "out.nii"] (by decide)).1
      (by decide)).2.2 ⟨[[1, 2, 3]]⟩ defaultClient rfl rfl⟩

/-! ## The overrides (C6, C7, C8) -/

/-- C6: for every inference call `main` makes, whatever model was resolved: when the
command line has `-pad v` the model passed to the call has the padding read from `v`,
and when it has `-roi v` the model passed to the call has the ROI parsed from `v` with
the delimiter `x`. -/
theorem pad_and_roi_override (env : Env) (argv : List String)
    (cl : Client) (m : Model) (ps : PointSet) (i out : String) (p : Bool) (s : String)
    (hcall : Call.dextr3D cl m ps i out p s ∈ (main env argv).calls) :
    (∀ pre v post, argv = pre ++ "-pad" :: v :: post → "-pad" ∉ pre →
      m.padding = env.lexical_cast_double v) ∧
    (∀ pre v post, argv = pre ++ "-roi" :: v :: post → "-roi" ∉ pre →
      env.stringToPoint v 'x' = .ok m.roi) := by
  have hv : passesValidation env argv := by
    by_contra hv
    rw [main_calls_of_invalid env argv hv] at hcall
    exact List.not_mem_nil _ hcall
  rw [(main_calls_of_valid env argv hv).1] at hcall
  obtain ⟨-, -, -, -, -, -, m0, -, -, hm⟩ :=
    inference_call_inv env argv (parseOptions env argv) cl m ps i out p s hcall
  constructor
  · intro pre v post hargv hpre
    have hex : cmdOptionExists argv "-pad" = true :=
      (cmdOptionExists_iff_mem argv "-pad").mpr (by rw [hargv]; simp)
    have hpad : (parseOptions env argv).pad = env.lexical_cast_double v := by
      show env.lexical_cast_double (getCmdOption argv "-pad" "20.0") = _
      rw [hargv, getCmdOption_first pre post "-pad" v "20.0" hpre]
    have hov : (overrideNameAndPadding argv (parseOptions env argv) m0).padding =
        env.lexical_cast_double v := by
      rw [overrideNameAndPadding_padding, if_pos hex, hpad]
    by_cases hr : cmdOptionExists argv "-roi" = true
    · rw [if_pos hr] at hm
      obtain ⟨pt, -, rfl⟩ := hm
      exact hov
    · rw [if_neg hr] at hm
      rw [hm]
      exact hov
  · intro pre v post hargv hpre
    have hex : cmdOptionExists argv "-roi" = true :=
      (cmdOptionExists_iff_mem argv "-roi").mpr (by rw [hargv]; simp)
    have hroi : (parseOptions env argv).roi = v := by
      show getCmdOption argv "-roi" "128x128x128" = _
      rw [hargv, getCmdOption_first pre post "-roi" v "128x128x128" hpre]
    rw [if_pos hex] at hm
    obtain ⟨pt, hpt, rfl⟩ := hm
    rw [← hroi, hpt]
    rfl

/-- C6 at `-pad 15 -roi 64x64x64` over a model with padding 20 and ROI 128x128x128:
the call gets padding 15 and ROI (64,64,64). -/
theorem pad_and_roi_override_witness :
    Call.dextr3D defaultClient
        ⟨"annotation_ct_liver", ["liver"], ModelType.annotation, 15, [64, 64, 64]⟩
        ⟨[[1, 2, 3]]⟩ "in.nii" "out.nii" false "" ∈
      (main (scripted plainCatalog (fetchFrom plainCatalog) (.ok 0))
        (liverArgs ++ ["-pad", "15", "-roi", "64x64x64"])).calls ∧
    ((⟨"annotation_ct_liver", ["liver"], ModelType.annotation, 15, [64, 64, 64]⟩ :
      Model).padding =
        (scripted plainCatalog (fetchFrom plainCatalog) (.ok 0)).lexical_cast_double "15") ∧
    (scripted plainCatalog (fetchFrom plainCatalog) (.ok 0)).stringToPoint "64x64x64" 'x' =
      .ok [64, 64, 64] :=
  ⟨by decide,
   (pad_and_roi_override (scripted plainCatalog (fetchFrom plainCatalog) (.ok 0))
      (liverArgs ++ ["-pad", "15", "-roi", "64x64x64"]) defaultClient
      ⟨"annotation_ct_liver", ["liver"], ModelType.annotation, 15, [64, 64, 64]⟩
      ⟨[[1, 2, 3]]⟩ "in.nii" "out.nii" false "" (by decide)).1
      liverArgs "15" ["-roi", "64x64x64"] rfl (by decide),
   (pad_and_roi_override (scripted plainCatalog (fetchFrom plainCatalog) (.ok 0))
      (liverArgs ++ ["-pad", "15", "-roi", "64x64x64"]) defaultClient
      ⟨"annotation_ct_liver", ["liver"], ModelType.annotation, 15, [64, 64, 64]⟩
      ⟨[[1, 2, 3]]⟩ "in.nii" "out.nii" false "" (by decide)).2
      (liverArgs ++ ["-pad", "15"]) "64x64x64" [] rfl (by decide)⟩

/-- C7: for every model name X, every inference call that an invocation with
`-model X` makes carries a model whose name field is X; that model comes from the
descriptor the by-name fetch of X returned, whatever the name field of that
descriptor is. -/
theorem model_name_override (env : Env) (argv : List String)
    (hX : (parseOptions env argv).model ≠ "")
    (cl : Client) (m : Model) (ps : PointSet) (i out : String) (p : Bool) (s : String)
    (hcall : Call.dextr3D cl m ps i out p s ∈ (main env argv).calls) :
    m.name = (parseOptions env argv).model ∧
    ∃ d, env.model cl (parseOptions env argv).model = .ok d ∧
      m.labels = d.labels ∧ m.type = d.type := by
  have hv : passesValidation env argv := by
    by_contra hv
    rw [main_calls_of_invalid env argv hv] at hcall
    exact List.not_mem_nil _ hcall
  rw [(main_calls_of_valid env argv hv).1] at hcall
  obtain ⟨-, -, -, -, -, -, d, hd, -, hm⟩ :=
    inference_call_inv env argv (parseOptions env argv) cl m ps i out p s hcall
  rw [if_neg hX] at hd
  have hname : (overrideNameAndPadding argv (parseOptions env argv) d).name =
      (parseOptions env argv).model := by
    rw [overrideNameAndPadding_name, if_neg hX]
  have hlab : (overrideNameAndPadding argv (parseOptions env argv) d).labels = d.labels ∧
      (overrideNameAndPadding argv (parseOptions env argv) d).type = d.type := by
    unfold overrideNameAndPadding
    by_cases hp : cmdOptionExists argv "-pad" = true <;>
      simp [hX, hp, Model.setName, Model.setPadding]
  by_cases hr : cmdOptionExists argv "-roi" = true
  · rw [if_pos hr] at hm
    obtain ⟨pt, -, rfl⟩ := hm
    exact ⟨hname, d, hd, hlab.1, hlab.2⟩
  · rw [if_neg hr] at hm
    rw [hm]
    exact ⟨hname, d, hd, hlab.1, hlab.2⟩

/-- C7 at `-model annotation_ct_liver` when the server's descriptor carries the
canonical name `liver_v2`: the inference call is made under the requested name. -/
theorem model_name_override_witness :
    Call.dextr3D defaultClient
        ⟨"annotation_ct_liver", ["liver"], ModelType.annotation, 30, [96, 96, 96]⟩
        ⟨[[1, 2, 3]]⟩ "in.nii" "out.nii" false "" ∈
      (main
        (scripted liverCatalog
          (fun _ => .ok ⟨"liver_v2", ["liver"], ModelType.annotation, 30, [96, 96, 96]⟩)
          (.ok 0)) modelArgs).calls ∧
    (⟨"annotation_ct_liver", ["liver"], ModelType.annotation, 30, [96, 96, 96]⟩ :
      Model).name = "annotation_ct_liver" :=
  ⟨by decide,
    (model_name_override
      (scripted liverCatalog
        (fun _ => .ok ⟨"liver_v2", ["liver"], ModelType.annotation, 30, [96, 96, 96]⟩)
        (.ok 0)) modelArgs (by decide) defaultClient
      ⟨"annotation_ct_liver", ["liver"], ModelType.annotation, 30, [96, 96, 96]⟩
      ⟨[[1, 2, 3]]⟩ "in.nii" "out.nii" false "" (by decide)).1⟩

/-- C8 fails when the catalog's model has a padding or ROI of its own: the `liver`
invocation has neither `-pad` nor `-roi`, the catalog has a point-annotation model for
`liver`, and the one inference call gets that model's padding 30 and ROI (96,96,96),
not the defaults 20.0 and (128,128,128) of the command line. -/
theorem defaults_counterexample :
    passesValidation (scripted liverCatalog (fetchFrom liverCatalog) (.ok 0)) liverArgs ∧
    "-pad" ∉ liverArgs ∧ "-roi" ∉ liverArgs ∧
    (scripted liverCatalog (fetchFrom liverCatalog) (.ok 0)).getMatchingModel liverCatalog
      "liver" ModelType.annotation = .ok liverModel ∧
    (main (scripted liverCatalog (fetchFrom liverCatalog) (.ok 0)) liverArgs).calls.filter
      Call.isInference =
        [.dextr3D defaultClient liverModel ⟨[[1, 2, 3]]⟩ "in.nii" "out.nii" false ""] ∧
    liverModel.padding ≠
      (scripted liverCatalog (fetchFrom liverCatalog) (.ok 0)).lexical_cast_double "20.0" ∧
    liverModel.padding ≠ 20 ∧ liverModel.roi ≠ [128, 128, 128] :=
  ⟨by decide, by decide, by decide, rfl, by decide, by decide, by decide, by decide⟩

/-- C8 amended: in a validated invocation without `-model`, `-pad` and `-roi`, when
the point set is parsed, the client is built, the catalog is fetched and its match
for `-label` among the annotation models is a model `m` with a non-empty name, `main`
makes exactly one inference call and passes `m` to it unchanged: the padding and the
ROI of the call are those of the catalog's model. -/
theorem no_override_keeps_resolved_model (env : Env) (argv : List String)
    (hv : passesValidation env argv) (hmodel : (parseOptions env argv).model = "")
    (hpad : "-pad" ∉ argv) (hroi : "-roi" ∉ argv)
    (ps : PointSet) (cl : Client) (ms : ModelList) (m : Model)
    (h1 : env.fromJson (parseOptions env argv).points = .ok ps)
    (h2 : env.newClient (parseOptions env argv).serverUri (parseOptions env argv).timeout =
      .ok cl)
    (h3 : env.models cl = .ok ms)
    (h4 : env.getMatchingModel ms (parseOptions env argv).label ModelType.annotation = .ok m)
    (hn : m.name ≠ "") :
    (main env argv).calls.filter Call.isInference =
      [.dextr3D cl m ps (parseOptions env argv).inputImageFile
        (parseOptions env argv).outputImageFile (parseOptions env argv).preProcess
        (parseOptions env argv).sessionId] := by
  have hpad2 : cmdOptionExists argv "-pad" = false := by
    cases h : cmdOptionExists argv "-pad"
    · rfl
    · exact absurd ((cmdOptionExists_iff_mem argv "-pad").mp h) hpad
  have hroi2 : cmdOptionExists argv "-roi" = false := by
    cases h : cmdOptionExists argv "-roi"
    · rfl
    · exact absurd ((cmdOptionExists_iff_mem argv "-roi").mp h) hroi
  have h3b : if (parseOptions env argv).model = "" then
        ∃ ms, env.models cl = .ok ms ∧
          env.getMatchingModel ms (parseOptions env argv).label ModelType.annotation = .ok m
      else env.model cl (parseOptions env argv).model = .ok m := by
    rw [if_pos hmodel]
    exact ⟨ms, h3, h4⟩
  obtain ⟨m1, hf, -, -, hm1⟩ :=
    tryBlock_reaches_inference env argv (parseOptions env argv) ps cl m h1 h2 h3b hn
      (fun h => by rw [hroi2] at h; exact Bool.noConfusion h)
  rw [(main_calls_of_valid env argv hv).1, hf, hm1 hroi2,
    overrideNameAndPadding_id argv (parseOptions env argv) m hmodel hpad2]

/-- Amended C8 at the `liver` invocation over `plainCatalog`: the call gets the
catalog model, whose padding is 20 and whose ROI is (128,128,128). -/
theorem no_override_keeps_resolved_model_witness :
    passesValidation (scripted plainCatalog (fetchFrom plainCatalog) (.ok 0)) liverArgs ∧
    (main (scripted plainCatalog (fetchFrom plainCatalog) (.ok 0)) liverArgs).calls.filter
      Call.isInference =
        [.dextr3D defaultClient
          ⟨"annotation_ct_liver", ["liver"], ModelType.annotation, 20, [128, 128, 128]⟩
          ⟨[[1, 2, 3]]⟩ "in.nii" "out.nii" false ""] :=
  ⟨by decide,
    no_override_keeps_resolved_model (scripted plainCatalog (fetchFrom plainCatalog) (.ok 0))
      liverArgs (by decide) (by decide) (by decide) (by decide) ⟨[[1, 2, 3]]⟩ defaultClient
      plainCatalog
      ⟨"annotation_ct_liver", ["liver"], ModelType.annotation, 20, [128, 128, 128]⟩
      rfl rfl rfl rfl (by decide)⟩

/-! ## Session and pre-processing (C9) -/

/-- C9 fails when an image is given together with the session id: with `-session s1`
and `-crop` the invocation passes validation, `main` returns the status 0 of the
inference call, and that call has the session id `s1` and the pre-processing flag
true. -/
theorem session_with_crop_counterexample :
    getCmdOption sessionCropArgs "-session" "" = "s1" ∧ "-crop" ∈ sessionCropArgs ∧
    passesValidation (scripted liverCatalog (fetchFrom liverCatalog) (.ok 0))
      sessionCropArgs ∧
    (main (scripted liverCatalog (fetchFrom liverCatalog) (.ok 0)) sessionCropArgs).code = 0 ∧
    (main (scripted liverCatalog (fetchFrom liverCatalog) (.ok 0)) sessionCropArgs).calls.filter
      Call.isInference =
        [.dextr3D defaultClient liverModel ⟨[[1, 2, 3]]⟩ "in.nii" "out.nii" true "s1"] :=
  ⟨by decide, by decide, by decide, by decide, by decide⟩

/-- C9 amended: a non-help invocation with a non-empty session id, `-crop` and no
`-image` fails validation: `main` returns -1 without any call; and every inference
call `main` makes with the pre-processing flag true (with or without a session id)
has a non-empty image path. -/
theorem crop_requires_image (env : Env) (argv : List String) :
    (¬ helpRequested argv → getCmdOption argv "-session" "" ≠ "" → "-crop" ∈ argv →
      getCmdOption argv "-image" "" = "" → main env argv = ⟨-1, []⟩) ∧
    (∀ cl m ps i out s, Call.dextr3D cl m ps i out true s ∈ (main env argv).calls →
      i ≠ "") := by
  constructor
  · intro hh _ hcrop himg
    have hu : usageError (parseOptions env argv) := by
      refine Or.inr (Or.inr (Or.inr (Or.inl ⟨?_, himg⟩)))
      show (if cmdOptionExists argv "-crop" then true else false) = true
      rw [(cmdOptionExists_iff_mem argv "-crop").mpr hcrop]
      rfl
    rw [main_of_not_help env argv hh, if_pos hu]
  · intro cl m ps i out s hcall
    have hv : passesValidation env argv := by
      by_contra hv
      rw [main_calls_of_invalid env argv hv] at hcall
      exact List.not_mem_nil _ hcall
    rw [(main_calls_of_valid env argv hv).1] at hcall
    obtain ⟨-, -, hi, -, hp, -, -⟩ :=
      inference_call_inv env argv (parseOptions env argv) cl m ps i out true s hcall
    intro hie
    apply hv.2
    refine Or.inr (Or.inr (Or.inr (Or.inl ⟨hp.symm, ?_⟩)))
    rw [← hi, hie]

/-- Amended C9 at `-label liver -points [[1,2,3]] -session s1 -crop -output out.nii`
(no image): -1 and no call; and in the run of `sessionCropArgs` the inference call
with the flag true has the image `in.nii`. -/
theorem crop_requires_image_witness :
    main (scripted liverCatalog (fetchFrom liverCatalog) (.ok 0))
      ["aiaa-dextra3d", "-label", "liver", "-points", "[[1,2,3]]", "-session", "s1", "-crop",
        "-output", "out.nii"] = ⟨-1, []⟩ ∧
    "in.nii" ≠ "" :=
  ⟨(crop_requires_image (scripted liverCatalog (fetchFrom liverCatalog) (.ok 0))
      ["aiaa-dextra3d", "-label", "liver", "-points", "[[1,2,3]]", "-session", "s1", "-crop",
        "-output", "out.nii"]).1 (by decide) (by decide) (by decide) (by decide),
   (crop_requires_image (scripted liverCatalog (fetchFrom liverCatalog) (.ok 0))
      sessionCropArgs).2 defaultClient liverModel ⟨[[1, 2, 3]]⟩ "in.nii" "out.nii" "s1"
      (by decide)⟩

end Aiaa
